import Mathlib

/-!
Verification of the linear-interpolation moving-object observation pipeline
(`linearObs.py`, `ephemerides.py`, `generateCoefficients.py`).

Numeric conventions: exact rational arithmetic models the time-grid code
(`np.arange` over floats); real arithmetic models the photometric formulas
(`np.log10`).  External collaborators (pyoorb, `angularSeparation`,
`chipNameFromRaDecLSST`, `Sed`/`Bandpass`) are modelled as abstract service
parameters, mirroring the batch/query contracts the source calls them with.
-/

namespace MovingObjects

/-! Section: Time grid (LinearObs.setTimesRange, linearObs.py lines 42-56)

`np.arange(a, b, s)` produces `a + i*s` for `0 <= i < ceil((b-a)/s)`
(length clamped at zero); it raises `ZeroDivisionError` when `s = 0`,
modelled here by returning `none`. -/

def arangeList (a s : ℚ) (n : ℕ) : List ℚ :=
  (List.range n).map (fun i : ℕ => a + (i : ℚ) * s)

def arangeLen (a b s : ℚ) : ℕ :=
  (Int.ceil ((b - a) / s)).toNat

def arange (a b s : ℚ) : Option (List ℚ) :=
  if s = 0 then none
  else some (arangeList a s (arangeLen a b s))

/-- Numeric code for the TAI timescale (ephemerides.py `timeScales`). -/
def taiCode : ℕ := 4

/-- LinearObs.setTimesRange: pads the window by one step at both ends, builds
`np.arange(timeStart - timeStep, timeEnd + timeStep + timeStep/2, timeStep)`
and tags each time with the timescale code. -/
def setTimesRange (timeStep timeStart timeEnd : ℚ) (tsNum : ℕ) :
    Option (List (ℚ × ℕ)) :=
  let step := timeStep
  let a := timeStart - step
  let b := timeEnd + step
  (arange a (b + step / 2) step).map (fun ts => ts.map (fun t => (t, tsNum)))

lemma arangeList_length (a s : ℚ) (n : ℕ) : (arangeList a s n).length = n := by
  rw [arangeList, List.length_map, List.length_range]

lemma arangeList_getD (a s : ℚ) (n i : ℕ) (h : i < n) :
    (arangeList a s n).getD i 0 = a + (i : ℚ) * s := by
  rw [arangeList, List.getD, List.get?_map, List.get?_range h]
  rfl

/-- The bare list of grid times produced by `setTimesRange`. -/
def gridOf (timeStep timeStart timeEnd : ℚ) : List ℚ :=
  arangeList (timeStart - timeStep) timeStep
    (arangeLen (timeStart - timeStep) (timeEnd + timeStep + timeStep / 2) timeStep)

lemma gridOf_length_ge (step start e : ℚ) (hstep : 0 < step) (hse : start ≤ e) :
    3 ≤ (gridOf step start e).length := by
  rw [gridOf, arangeList_length, arangeLen]
  have hq2 : (2 : ℚ) < (e + step + step / 2 - (start - step)) / step := by
    rw [lt_div_iff hstep]
    nlinarith
  have hc3 : (3 : ℤ) ≤ Int.ceil ((e + step + step / 2 - (start - step)) / step) := by
    have h2 : (2 : ℤ) < Int.ceil ((e + step + step / 2 - (start - step)) / step) :=
      Int.lt_ceil.mpr (by exact_mod_cast hq2)
    omega
  omega

lemma gridOf_len_bounds (step start e : ℚ) (hstep : 0 < step) (hse : start ≤ e) :
    e - start + 5 / 2 * step ≤ ((gridOf step start e).length : ℚ) * step ∧
    (((gridOf step start e).length : ℚ) - 1) * step < e - start + 5 / 2 * step := by
  rw [gridOf, arangeList_length, arangeLen]
  have hble : e + step + step / 2 - (start - step) = e - start + 5 / 2 * step := by
    ring
  set q := (e + step + step / 2 - (start - step)) / step with hqdef
  have hq2 : (2 : ℚ) < q := by
    rw [hqdef, lt_div_iff₀ hstep]
    nlinarith
  have hc0 : (0 : ℤ) ≤ Int.ceil q := by
    have h2 : (2 : ℤ) < Int.ceil q := Int.lt_ceil.mpr (by exact_mod_cast hq2)
    omega
  have hcast : (((Int.ceil q).toNat : ℕ) : ℚ) = ((Int.ceil q : ℤ) : ℚ) := by
    exact_mod_cast congrArg (fun z : ℤ => (z : ℚ)) (Int.toNat_of_nonneg hc0)
  constructor
  · have h1 : q ≤ ((Int.ceil q : ℤ) : ℚ) := Int.le_ceil q
    rw [hcast]
    have h2 : e - start + 5 / 2 * step ≤ q * step := by
      rw [hqdef, div_mul_cancel₀ _ (ne_of_gt hstep), hble]
    calc e - start + 5 / 2 * step ≤ q * step := h2
      _ ≤ ((Int.ceil q : ℤ) : ℚ) * step := by
          exact mul_le_mul_of_nonneg_right h1 (le_of_lt hstep)
  · have h1 : ((Int.ceil q : ℤ) : ℚ) < q + 1 := Int.ceil_lt_add_one q
    rw [hcast]
    have h2 : (((Int.ceil q : ℤ) : ℚ) - 1) * step < q * step := by
      have := sub_lt_sub_right h1 1
      simp only [add_sub_cancel_right] at this
      exact mul_lt_mul_of_pos_right this hstep
    have h3 : q * step = e - start + 5 / 2 * step := by
      rw [hqdef, div_mul_cancel₀ _ (ne_of_gt hstep), hble]
    linarith

lemma gridOf_getD (step start e : ℚ) (i : ℕ) (hi : i < (gridOf step start e).length) :
    (gridOf step start e).getD i 0 = (start - step) + (i : ℚ) * step := by
  rw [gridOf, arangeList_length] at hi
  rw [gridOf]
  exact arangeList_getD _ _ _ _ hi

/-- C1: for every window (start, end) and positive step, the time grid built by
setTimesRange is ascending with consecutive samples spaced by step, its lower
bound equals start − step, its padded upper bound equals end + step within half
a step, and every query time t with start ≤ t ≤ end lies strictly within the
[min, max] bounds of the grid. -/
theorem C1_setTimesRange_grid (step start e : ℚ) (hstep : 0 < step)
    (hse : start ≤ e) :
    setTimesRange step start e taiCode =
      some ((gridOf step start e).map (fun t => (t, taiCode))) ∧
    gridOf step start e ≠ [] ∧
    (∀ i : ℕ, i + 1 < (gridOf step start e).length →
      (gridOf step start e).getD (i + 1) 0 = (gridOf step start e).getD i 0 + step) ∧
    (gridOf step start e).getD 0 0 = start - step ∧
    |(gridOf step start e).getD ((gridOf step start e).length - 1) 0 - (e + step)| ≤
      step / 2 ∧
    (∀ t : ℚ, start ≤ t → t ≤ e →
      (gridOf step start e).getD 0 0 < t ∧
      t < (gridOf step start e).getD ((gridOf step start e).length - 1) 0) := by
  have hs0 : step ≠ 0 := ne_of_gt hstep
  have hlen3 := gridOf_length_ge step start e hstep hse
  have hbounds := gridOf_len_bounds step start e hstep hse
  have hcast : (((gridOf step start e).length - 1 : ℕ) : ℚ) =
      ((gridOf step start e).length : ℚ) - 1 := by
    have h1 : 1 ≤ (gridOf step start e).length := by omega
    rw [Nat.cast_sub h1, Nat.cast_one]
  have hlast : (gridOf step start e).getD ((gridOf step start e).length - 1) 0 =
      (start - step) + (((gridOf step start e).length : ℚ) - 1) * step := by
    rw [gridOf_getD step start e _ (by omega), hcast]
  have hlastlb : e + step / 2 ≤
      (gridOf step start e).getD ((gridOf step start e).length - 1) 0 := by
    rw [hlast]
    have hx : (((gridOf step start e).length : ℚ) - 1) * step =
        ((gridOf step start e).length : ℚ) * step - step := by ring
    rw [hx]
    linarith [hbounds.1]
  have hlastub : (gridOf step start e).getD ((gridOf step start e).length - 1) 0 <
      e + 3 / 2 * step := by
    rw [hlast]
    have hx : (((gridOf step start e).length : ℚ) - 1) * step <
        e - start + 5 / 2 * step := hbounds.2
    linarith
  have hhead : (gridOf step start e).getD 0 0 = start - step := by
    rw [gridOf_getD step start e 0 (by omega)]
    push_cast
    ring
  refine ⟨?_, ?_, ?_, hhead, ?_, ?_⟩
  · simp only [setTimesRange, arange, gridOf, if_neg hs0]
    rfl
  · have hpos : 0 < (gridOf step start e).length := by omega
    exact List.ne_nil_of_length_pos hpos
  · intro i hi
    rw [gridOf_getD step start e (i + 1) hi, gridOf_getD step start e i (by omega)]
    push_cast
    ring
  · rw [abs_le]
    constructor
    · linarith [hlastlb]
    · linarith [hlastub]
  · intro t hts hte
    constructor
    · rw [hhead]
      linarith
    · linarith [hlastlb]

/-- Witness for C1 at step 1, window (0, 2). -/
theorem C1_setTimesRange_grid_witness :
    (0 : ℚ) < 1 ∧ (0 : ℚ) ≤ 2 ∧
    setTimesRange 1 0 2 taiCode =
      some ((gridOf 1 0 2).map (fun t => (t, taiCode))) ∧
    (gridOf 1 0 2).getD 0 0 = 0 - 1 := by
  refine ⟨by norm_num, by norm_num, ?_, ?_⟩
  · exact (C1_setTimesRange_grid 1 0 2 (by norm_num) (by norm_num)).1
  · exact (C1_setTimesRange_grid 1 0 2 (by norm_num) (by norm_num)).2.2.2.1

/-- C8 counterexample: with step = −1 (which is ≤ 0) and window (0, 10),
setTimesRange does not fail; np.arange with a negative step simply returns an
array (here empty), so the construction yields a grid rather than an error. -/
theorem C8_counterexample :
    (-1 : ℚ) ≤ 0 ∧ setTimesRange (-1) 0 10 taiCode ≠ none := by
  constructor
  · norm_num
  · decide

/-- C8 amended: the time-grid construction fails exactly when step = 0 (the
ZeroDivisionError raised by np.arange); any nonzero step, including negative
steps, returns a grid without raising. -/
theorem C8_amended (s a b : ℚ) (tsn : ℕ) :
    setTimesRange s a b tsn = none ↔ s = 0 := by
  by_cases h : s = 0 <;> simp [setTimesRange, arange, h]

/-! Section: Batched ephemeris generation
(PyOrbEphemerides._generateOorbEphs, ephemerides.py lines 102-121)

The pyoorb propagation engine is an external service treated as a black box: it maps a batch
of orbit-element rows, an observatory code and tagged times to a payload
(object x time x field) plus one integer status for the whole call. -/

structure OorbService where
  oorbEphemeris : List (List ℚ) → ℤ → List (ℚ × ℕ) → List (List (List ℚ)) × ℤ

/-- PyOrbEphemerides._generateOorbEphs: one batched service call; a nonzero
status is reported through warnings.warn and the payload is returned as is.
The Except codomain records that the function itself never raises. -/
def generateOorbEphs (svc : OorbService) (oorbElem : List (List ℚ))
    (ephTimes : List (ℚ × ℕ)) (obscode : ℤ) :
    Except String (List (List (List ℚ)) × List String) :=
  let r := svc.oorbEphemeris oorbElem obscode ephTimes
  if r.2 ≠ 0 then Except.ok (r.1, ["Oorb returned error"]) else Except.ok (r.1, [])

/-- C2: whenever the propagation service returns a nonzero status, the
ephemeris-generation call emits a warning, does not raise, and still returns
exactly the payload the service produced. -/
theorem C2_generateOorbEphs_warns (svc : OorbService) (oorbElem : List (List ℚ))
    (ephTimes : List (ℚ × ℕ)) (obscode : ℤ)
    (h : (svc.oorbEphemeris oorbElem obscode ephTimes).2 ≠ 0) :
    ∃ w : List String,
      generateOorbEphs svc oorbElem ephTimes obscode =
        Except.ok ((svc.oorbEphemeris oorbElem obscode ephTimes).1, w) ∧ w ≠ [] := by
  refine ⟨["Oorb returned error"], ?_, by simp⟩
  simp only [generateOorbEphs, if_pos h]

/-- Witness for C2 with a service that always reports status 1. -/
theorem C2_generateOorbEphs_warns_witness :
    ((OorbService.mk (fun _ _ _ => ([], 1))).oorbEphemeris [] 807 []).2 ≠ 0 ∧
    ∃ w : List String,
      generateOorbEphs (OorbService.mk (fun _ _ _ => ([], 1))) [] [] 807 =
        Except.ok (((OorbService.mk (fun _ _ _ => ([], 1))).oorbEphemeris [] 807 []).1, w) ∧
      w ≠ [] := by
  refine ⟨by decide, ?_⟩
  exact C2_generateOorbEphs_warns (OorbService.mk (fun _ _ _ => ([], 1))) [] [] 807
    (by decide)

/-! Section: Time-window chunking of the coefficient-generation driver
(bin.src/generateCoefficients.py lines 86-96)

The driver selects how to derive (tSpan, tEnd) from the optional command-line
values via an if/elif/elif chain; the third condition reads
`args.tEnd is None and args.tEnd is not None`. -/

inductive ChunkBranch where
  | both
  | spanOnly
  | deadBranch
  | noBranch
deriving DecidableEq

/-- The condition of the third elif, exactly as written in the source:
tEnd is None and tEnd is not None. -/
def deadCondition (tEnd : Option ℚ) : Bool :=
  !tEnd.isSome && tEnd.isSome

/-- The if/elif/elif chain over the optional tSpan and tEnd arguments,
returning which branch body executes. -/
def chunkBranch (tSpan tEnd : Option ℚ) : ChunkBranch :=
  if tSpan.isSome && tEnd.isSome then ChunkBranch.both
  else if tSpan.isSome && !tEnd.isSome then ChunkBranch.spanOnly
  else if deadCondition tEnd then ChunkBranch.deadBranch
  else ChunkBranch.noBranch

/-- C9: the branch testing tEnd for being both None and not None is
unreachable: for every combination of argument values the condition is false
and the branch body (deriving the span from tEnd and tStart) never executes. -/
theorem C9_dead_branch_unreachable (tSpan tEnd : Option ℚ) :
    deadCondition tEnd = false ∧ chunkBranch tSpan tEnd ≠ ChunkBranch.deadBranch := by
  cases tEnd <;> cases tSpan <;> simp [deadCondition, chunkBranch]

/-! Section: Trailing and detection losses
(LinearObs._calcMagLosses, linearObs.py lines 159-170)

The empirical formulas use np.log10; real arithmetic models the floats, the
source constant 24.0 is written 24. -/

noncomputable def calcMagLosses (velocity seeing texp : ℝ) : ℝ × ℝ :=
  let aTrail : ℝ := 0.76
  let bTrail : ℝ := 1.16
  let aDet : ℝ := 0.42
  let bDet : ℝ := 0
  let x : ℝ := velocity * texp / seeing / 24
  (1.25 * Real.logb 10 (1 + aTrail * x ^ 2 / (1 + bTrail * x)),
   1.25 * Real.logb 10 (1 + aDet * x ^ 2 / (1 + bDet * x)))

/-- C6: for seeing s > 0 and exposure time t > 0, zero velocity gives losses
exactly (0, 0); in general, with x = velocity * t / s / 24, the trailing loss
is 1.25 * log10(1 + 0.76 x^2 / (1 + 1.16 x)) and the detection loss is
1.25 * log10(1 + 0.42 x^2). -/
theorem C6_motionLosses (s t : ℝ) (hs : 0 < s) (ht : 0 < t) :
    calcMagLosses 0 s t = (0, 0) ∧
    ∀ v : ℝ, calcMagLosses v s t =
      (1.25 * Real.logb 10
          (1 + 0.76 * (v * t / s / 24) ^ 2 / (1 + 1.16 * (v * t / s / 24))),
       1.25 * Real.logb 10 (1 + 0.42 * (v * t / s / 24) ^ 2)) := by
  constructor
  · simp [calcMagLosses]
  · intro v
    simp only [calcMagLosses, Prod.mk.injEq]
    norm_num

/-- Witness for C6 at seeing 1, exposure time 1. -/
theorem C6_motionLosses_witness :
    (0 : ℝ) < 1 ∧ calcMagLosses 0 1 1 = (0, 0) :=
  ⟨one_pos, (C6_motionLosses 1 1 one_pos one_pos).1⟩

/-! Section: Color offsets (LinearObs._calcColors, linearObs.py lines 125-156)

On first ever use the method lazily loads the LSST bandpasses (raising
RuntimeError when the throughputs directory variable is unset) and creates the
empty color cache; per sed name it loads the spectrum, computes the magnitude
in each LSST filter minus the V-band magnitude, and caches the table.  The
Sed/Bandpass machinery is external: calcMag maps (sed name, band name) to a
magnitude, and loadLog records each spectral-data load (the load counter the
spec uses to state memoization). -/

def filterlist : List String := ["u", "g", "r", "i", "z", "y"]

inductive Err where
  | envErr
  | filterErr
deriving DecidableEq

structure PhotEnv where
  filterdirSet : Bool
  calcMag : String → String → ℝ

structure PhotState where
  lsstLoaded : Bool
  colors : List (String × List (String × ℝ))
  loadLog : List String

def PhotState.start : PhotState := ⟨false, [], []⟩

/-- The lazy first-use block of _calcColors: load bandpasses and create the
empty color cache, or fail when the throughputs directory is not set. -/
def lsstLazyLoad (env : PhotEnv) (st : PhotState) : Except Err PhotState :=
  if st.lsstLoaded then Except.ok st
  else if env.filterdirSet then
    Except.ok { st with lsstLoaded := true, colors := [] }
  else Except.error Err.envErr

def calcColors (env : PhotEnv) (st : PhotState) (sedname : String) :
    Except Err (List (String × ℝ) × PhotState) :=
  match lsstLazyLoad env st with
  | Except.error e => Except.error e
  | Except.ok st1 =>
    match st1.colors.lookup sedname with
    | some table => Except.ok (table, st1)
    | none =>
        let vmag := env.calcMag sedname "V"
        let table := filterlist.map (fun f => (f, env.calcMag sedname f - vmag))
        Except.ok (table,
          { st1 with
            colors := st1.colors ++ [(sedname, table)],
            loadLog := st1.loadLog ++ [sedname] })

lemma lsstLazyLoad_ok (env : PhotEnv) (st st' : PhotState)
    (h : lsstLazyLoad env st = Except.ok st') :
    st'.lsstLoaded = true ∧ st'.loadLog = st.loadLog ∧
    (st.lsstLoaded = true → st' = st) ∧
    (st.lsstLoaded = false → st'.colors = []) := by
  by_cases hl : st.lsstLoaded
  · rw [lsstLazyLoad, if_pos hl] at h
    cases h
    exact ⟨hl, rfl, fun _ => rfl, fun hc => absurd hl (by simp [hc])⟩
  · rw [lsstLazyLoad, if_neg hl] at h
    by_cases hf : env.filterdirSet
    · rw [if_pos hf] at h
      cases h
      refine ⟨rfl, rfl, fun hc => absurd hc hl, fun _ => rfl⟩
    · rw [if_neg hf] at h
      cases h

lemma lookup_append_of_left_none {β : Type} (l1 l2 : List (String × β)) (k : String)
    (h : l1.lookup k = none) : (l1 ++ l2).lookup k = l2.lookup k := by
  induction l1 with
  | nil => simp
  | cons p rest ih =>
      obtain ⟨a, b⟩ := p
      cases hk : k == a with
      | true => simp [List.lookup, hk] at h
      | false =>
          simp only [List.lookup, hk] at h
          simp only [List.cons_append, List.lookup, hk]
          exact ih h

/-- C5: a successful calcColors call followed by a second call with the same
sed name returns the identical cached table and leaves the state unchanged;
at most one spectral-data load happens per call, and starting from the fresh
state the load log counts the sed name exactly once. -/
theorem C5_calcColors_memoized (env : PhotEnv) (st : PhotState) (sedname : String)
    (table : List (String × ℝ)) (st1 : PhotState)
    (h : calcColors env st sedname = Except.ok (table, st1)) :
    calcColors env st1 sedname = Except.ok (table, st1) ∧
    st1.loadLog.count sedname ≤ st.loadLog.count sedname + 1 ∧
    (st = PhotState.start → st1.loadLog.count sedname = 1) := by
  rw [calcColors] at h
  cases hinit : lsstLazyLoad env st with
  | error e => rw [hinit] at h; cases h
  | ok stA =>
    rw [hinit] at h
    obtain ⟨hload, hlog, hkeep, hfresh⟩ := lsstLazyLoad_ok env st stA hinit
    cases hlook : stA.colors.lookup sedname with
    | some tbl =>
        simp only [hlook, Except.ok.injEq, Prod.mk.injEq] at h
        obtain ⟨htbl, hst⟩ := h
        subst htbl
        subst hst
        have hsecond : lsstLazyLoad env stA = Except.ok stA := by
          rw [lsstLazyLoad, if_pos hload]
        refine ⟨?_, ?_, ?_⟩
        · rw [calcColors, hsecond]
          simp only [hlook]
        · rw [hlog]
          omega
        · intro hstart
          have hc : stA.colors = [] := by
            apply hfresh
            rw [hstart]
            rfl
          rw [hc] at hlook
          cases hlook
    | none =>
        simp only [hlook, Except.ok.injEq, Prod.mk.injEq] at h
        obtain ⟨htbl, hst⟩ := h
        subst htbl
        have hload1 : st1.lsstLoaded = true := by
          rw [← hst]
          exact hload
        have hcolors : st1.colors = stA.colors ++ [(sedname,
            filterlist.map (fun f => (f, env.calcMag sedname f - env.calcMag sedname "V")))] := by
          rw [← hst]
        have hlog1 : st1.loadLog = stA.loadLog ++ [sedname] := by
          rw [← hst]
        have hlook1 : st1.colors.lookup sedname = some (filterlist.map
            (fun f => (f, env.calcMag sedname f - env.calcMag sedname "V"))) := by
          rw [hcolors, lookup_append_of_left_none _ _ _ hlook]
          simp [List.lookup]
        refine ⟨?_, ?_, ?_⟩
        · rw [calcColors, lsstLazyLoad, if_pos hload1]
          simp only [hlook1]
        · rw [hlog1, hlog, List.count_append]
          simp [List.count_cons]
        · intro hstart
          have hempty : st.loadLog = [] := by
            rw [hstart]
            rfl
          rw [hlog1, hlog, hempty, List.count_append]
          simp [List.count_cons]

/-- Witness for C5: first call from the fresh state with sed name C.dat under
a trivial magnitude service. -/
theorem C5_calcColors_memoized_witness :
    calcColors (PhotEnv.mk true (fun _ _ => 0)) PhotState.start "C.dat" =
      Except.ok (filterlist.map (fun f => ((f : String), (0 : ℝ) - 0)),
        PhotState.mk true
          [("C.dat", filterlist.map (fun f => ((f : String), (0 : ℝ) - 0)))]
          ["C.dat"]) ∧
    calcColors (PhotEnv.mk true (fun _ _ => 0))
        (PhotState.mk true
          [("C.dat", filterlist.map (fun f => ((f : String), (0 : ℝ) - 0)))]
          ["C.dat"]) "C.dat" =
      Except.ok (filterlist.map (fun f => ((f : String), (0 : ℝ) - 0)),
        PhotState.mk true
          [("C.dat", filterlist.map (fun f => ((f : String), (0 : ℝ) - 0)))]
          ["C.dat"]) ∧
    (PhotState.mk true
          [("C.dat", filterlist.map (fun f => ((f : String), (0 : ℝ) - 0)))]
          ["C.dat"]).loadLog.count "C.dat" = 1 := by
  have h : calcColors (PhotEnv.mk true (fun _ _ => 0)) PhotState.start "C.dat" =
      Except.ok (filterlist.map (fun f => ((f : String), (0 : ℝ) - 0)),
        PhotState.mk true
          [("C.dat", filterlist.map (fun f => ((f : String), (0 : ℝ) - 0)))]
          ["C.dat"]) := by
    rw [calcColors, lsstLazyLoad]
    rfl
  have hmain := C5_calcColors_memoized (PhotEnv.mk true (fun _ _ => 0))
    PhotState.start "C.dat" _ _ h
  exact ⟨h, hmain.1, hmain.2.2 rfl⟩

/-! Section: Observation output (LinearObs.writeObs, linearObs.py lines 172-236)

One visit row of the opsim table carries the columns writeObs reads; output
lines keep the column structure (header of column names, or one record of
objId plus ephemeris, visit and photometric values) while eliding the string
formatting of the floats. -/

structure Visit where
  expMJD : ℝ
  fieldRA : ℝ
  fieldDec : ℝ
  rotSkyPos : ℝ
  filter : String
  FWHMgeom : ℝ
  visitExpTime : ℝ

instance : Inhabited Visit := ⟨⟨0, 0, 0, 0, "", 0, 0⟩⟩

/-- The per-quantity linear interpolants built by interpolateEphs (every
ephemeris quantity except time itself). -/
structure Interp where
  delta : ℝ → ℝ
  ra : ℝ → ℝ
  dec : ℝ → ℝ
  magV : ℝ → ℝ
  dradt : ℝ → ℝ
  ddecdt : ℝ → ℝ
  phase : ℝ → ℝ
  solarelon : ℝ → ℝ
  velocity : ℝ → ℝ

def ephNames : List String :=
  ["delta", "ra", "dec", "magV", "time", "dradt", "ddecdt", "phase",
   "solarelon", "velocity"]

def simdataNames : List String :=
  ["expMJD", "fieldRA", "fieldDec", "rotSkyPos", "filter", "FWHMgeom",
   "visitExpTime"]

def dmagNames : List String :=
  ["magFilter", "dmagColor", "dmagTrail", "dmagDetect"]

def outCols : List String := ["objId"] ++ ephNames ++ simdataNames ++ dmagNames

inductive OutLine where
  | header (cols : List String)
  | record (objId : String) (ephVals : List ℝ) (visit : Visit) (dmagVals : List ℝ)

def isHeader : OutLine → Bool
  | OutLine.header _ => true
  | OutLine.record _ _ _ _ => false

def countHeaders (lines : List OutLine) : ℕ := (lines.filter isHeader).length

structure ObsState where
  opened : Bool
  wroteHeader : Bool
  lines : List OutLine
  phot : PhotState

def ObsState.start : ObsState := ⟨false, false, [], PhotState.start⟩

noncomputable def ephValsAt (interp : Interp) (t : ℝ) : List ℝ :=
  [interp.delta t, interp.ra t, interp.dec t, interp.magV t, t,
   interp.dradt t, interp.ddecdt t, interp.phase t, interp.solarelon t,
   interp.velocity t]

noncomputable def dmagValsAt (interp : Interp) (v : Visit) (dmagColor : ℝ) :
    List ℝ :=
  let magFilter := interp.magV v.expMJD + dmagColor
  let losses := calcMagLosses (interp.velocity v.expMJD) v.FWHMgeom v.visitExpTime
  [magFilter, dmagColor, losses.1, losses.2]

/-- LinearObs.writeObs.  Empty match set: return immediately (no open, no
header, no data).  Otherwise: lazily open the output (truncating), compute the
color table via _calcColors, fail with UserWarning when some matched filter is
absent from the table, write the header on the first real record only, then
append one record per matched visit. -/
noncomputable def writeObs (env : PhotEnv) (st : ObsState) (objId : String)
    (interp : Interp) (simdata : List Visit) (idxObs : List ℕ)
    (sedname : String) : Except Err ObsState :=
  if idxObs.length = 0 then Except.ok st
  else
    let st0 := if st.opened then st
               else { st with opened := true, wroteHeader := false, lines := [] }
    let matched := idxObs.map (fun i => simdata.getD i default)
    match calcColors env st0.phot sedname with
    | Except.error e => Except.error e
    | Except.ok (dmagColorDict, phot1) =>
      let st1 := { st0 with phot := phot1 }
      let filters := (matched.map (fun v => v.filter)).dedup
      if filters.all (fun f => (dmagColorDict.lookup f).isSome) then
        let st2 :=
          if st1.wroteHeader then st1
          else
            { st1 with
              wroteHeader := true
              lines := st1.lines ++ [OutLine.header outCols] }
        Except.ok { st2 with lines := st2.lines ++ matched.map (fun v =>
          OutLine.record objId (ephValsAt interp v.expMJD) v
            (dmagValsAt interp v ((dmagColorDict.lookup v.filter).getD 0))) }
      else Except.error Err.filterErr

structure WriteCall where
  objId : String
  interp : Interp
  simdata : List Visit
  idxObs : List ℕ
  sedname : String

/-- The per-object writeObs calls the runLinearObs driver makes, in order;
an uncaught exception aborts the run. -/
noncomputable def runWriteObs (env : PhotEnv) :
    ObsState → List WriteCall → Except Err ObsState
  | st, [] => Except.ok st
  | st, c :: rest =>
    match writeObs env st c.objId c.interp c.simdata c.idxObs c.sedname with
    | Except.error e => Except.error e
    | Except.ok st1 => runWriteObs env st1 rest

/-- C3: whenever some matched visit has a filter absent from the computed
color table, writeObs raises (the UserWarning of the source), so the call
aborts and no zero color offset is silently applied. -/
theorem C3_writeObs_unknown_filter (env : PhotEnv) (st : ObsState)
    (objId : String) (interp : Interp) (simdata : List Visit) (idxObs : List ℕ)
    (sedname : String) (dict : List (String × ℝ)) (phot1 : PhotState)
    (hcc : calcColors env st.phot sedname = Except.ok (dict, phot1))
    (i : ℕ) (hi : i ∈ idxObs)
    (hmiss : dict.lookup (simdata.getD i default).filter = none) :
    writeObs env st objId interp simdata idxObs sedname =
      Except.error Err.filterErr := by
  have hne : idxObs ≠ [] := by
    intro hx
    rw [hx] at hi
    cases hi
  have hlen : ¬ idxObs.length = 0 := by
    simpa [List.length_eq_zero] using hne
  have hmemf : (simdata.getD i default).filter ∈
      ((idxObs.map (fun j => simdata.getD j default)).map
        (fun v => v.filter)).dedup := by
    rw [List.mem_dedup]
    exact List.mem_map_of_mem _ (List.mem_map_of_mem _ hi)
  have hall : (((idxObs.map (fun j => simdata.getD j default)).map
        (fun v => v.filter)).dedup).all
        (fun f => (dict.lookup f).isSome) = false := by
    rw [Bool.eq_false_iff]
    intro htrue
    have h2 := List.all_eq_true.mp htrue _ hmemf
    rw [hmiss] at h2
    simp at h2
  have hphot : (if st.opened then st
      else { st with opened := true, wroteHeader := false, lines := [] }).phot =
      st.phot := by
    by_cases hop : st.opened <;> simp [hop]
  rw [writeObs, if_neg hlen]
  simp only [hphot, hcc]
  simp only [hall]
  rfl

/-- Witness for C3: one matched visit in filter X, which the computed color
table (keys u,g,r,i,z,y) does not contain. -/
theorem C3_writeObs_unknown_filter_witness :
    calcColors (PhotEnv.mk true (fun _ _ => 0)) ObsState.start.phot "C.dat" =
      Except.ok (filterlist.map (fun f => ((f : String), (0 : ℝ) - 0)),
        PhotState.mk true
          [("C.dat", filterlist.map (fun f => ((f : String), (0 : ℝ) - 0)))]
          ["C.dat"]) ∧
    (0 : ℕ) ∈ [0] ∧
    (filterlist.map (fun f => ((f : String), (0 : ℝ) - 0))).lookup
      (([Visit.mk 0 0 0 0 "X" 0 0].getD 0 default).filter) = none ∧
    writeObs (PhotEnv.mk true (fun _ _ => 0)) ObsState.start "obj"
      (Interp.mk (fun _ => 0) (fun _ => 0) (fun _ => 0) (fun _ => 0) (fun _ => 0)
        (fun _ => 0) (fun _ => 0) (fun _ => 0) (fun _ => 0))
      [Visit.mk 0 0 0 0 "X" 0 0] [0] "C.dat" = Except.error Err.filterErr := by
  have h1 : calcColors (PhotEnv.mk true (fun _ _ => 0)) ObsState.start.phot "C.dat" =
      Except.ok (filterlist.map (fun f => ((f : String), (0 : ℝ) - 0)),
        PhotState.mk true
          [("C.dat", filterlist.map (fun f => ((f : String), (0 : ℝ) - 0)))]
          ["C.dat"]) := by
    rw [calcColors, lsstLazyLoad]
    rfl
  have h3 : (filterlist.map (fun f => ((f : String), (0 : ℝ) - 0))).lookup
      (([Visit.mk 0 0 0 0 "X" 0 0].getD 0 default).filter) = none := by
    simp [filterlist, List.lookup]
  exact ⟨h1, by simp, h3,
    C3_writeObs_unknown_filter (PhotEnv.mk true (fun _ _ => 0)) ObsState.start "obj"
      (Interp.mk (fun _ => 0) (fun _ => 0) (fun _ => 0) (fun _ => 0) (fun _ => 0)
        (fun _ => 0) (fun _ => 0) (fun _ => 0) (fun _ => 0))
      [Visit.mk 0 0 0 0 "X" 0 0] [0] "C.dat" _ _ h1 0 (by simp) h3⟩

/-- The invariant the writer state keeps across writeObs calls: before the
header is written nothing has been written, and once written the header is
the single first output line. -/
def goodState (st : ObsState) : Prop :=
  (st.opened = false → st.wroteHeader = false) ∧
  (st.wroteHeader = false → st.lines = []) ∧
  (st.wroteHeader = true → countHeaders st.lines = 1 ∧
    st.lines.head? = some (OutLine.header outCols))

lemma goodState_start : goodState ObsState.start := by
  refine ⟨fun _ => rfl, fun _ => rfl, fun h => ?_⟩
  simp [ObsState.start] at h

lemma countHeaders_append (l1 l2 : List OutLine) :
    countHeaders (l1 ++ l2) = countHeaders l1 + countHeaders l2 := by
  simp [countHeaders, List.filter_append]

lemma countHeaders_map_record {α : Type} (g : α → OutLine)
    (hg : ∀ a, isHeader (g a) = false) (l : List α) :
    countHeaders (l.map g) = 0 := by
  induction l with
  | nil => rfl
  | cons a rest ih =>
      rw [List.map_cons, countHeaders, List.filter_cons_of_neg (by simp [hg a])]
      exact ih

lemma head?_append_left (l1 l2 : List OutLine) (h : l1 ≠ []) :
    (l1 ++ l2).head? = l1.head? := by
  cases l1 with
  | nil => exact absurd rfl h
  | cons a t => rfl

lemma countHeaders_ne_nil (l : List OutLine) (h : countHeaders l = 1) : l ≠ [] := by
  intro hx
  rw [hx] at h
  cases h

lemma writeObs_empty_noop (env : PhotEnv) (st : ObsState) (objId : String)
    (interp : Interp) (simdata : List Visit) (sedname : String) :
    writeObs env st objId interp simdata [] sedname = Except.ok st := by
  rw [writeObs]
  simp

lemma writeObs_step (env : PhotEnv) (st st' : ObsState) (objId : String)
    (interp : Interp) (simdata : List Visit) (idxObs : List ℕ) (sedname : String)
    (hg : goodState st)
    (h : writeObs env st objId interp simdata idxObs sedname = Except.ok st') :
    goodState st' ∧ (idxObs = [] → st' = st) ∧
    st'.wroteHeader = (st.wroteHeader || !idxObs.isEmpty) := by
  by_cases hlen : idxObs.length = 0
  · have hnil : idxObs = [] := List.length_eq_zero.mp hlen
    rw [writeObs, if_pos hlen] at h
    cases h
    exact ⟨hg, fun _ => rfl, by simp [hnil]⟩
  · have hne : idxObs ≠ [] := fun hx => hlen (by simp [hx])
    have hemp : idxObs.isEmpty = false := by
      cases idxObs with
      | nil => exact absurd rfl hne
      | cons a t => rfl
    rw [writeObs, if_neg hlen] at h
    simp only at h
    cases hcc : calcColors env (if st.opened then st
        else { st with opened := true, wroteHeader := false, lines := [] }).phot
        sedname with
    | error e =>
        rw [hcc] at h
        cases h
    | ok pr =>
        obtain ⟨dict, phot1⟩ := pr
        rw [hcc] at h
        simp only at h
        by_cases hall : (((idxObs.map (fun i => simdata.getD i default)).map
            (fun v => v.filter)).dedup).all
            (fun f => (dict.lookup f).isSome) = true
        · rw [if_pos hall] at h
          cases h
          have hrec : countHeaders ((idxObs.map (fun i => simdata.getD i default)).map
              (fun v => OutLine.record objId (ephValsAt interp v.expMJD) v
                (dmagValsAt interp v ((dict.lookup v.filter).getD 0)))) = 0 := by
            apply countHeaders_map_record
            intro a
            rfl
          by_cases hop : st.opened = true
          · by_cases hw : st.wroteHeader = true
            · simp only [hop, if_true, hw, hemp]
              obtain ⟨hc1, hh1⟩ := hg.2.2 hw
              have hnn : st.lines ≠ [] := countHeaders_ne_nil _ hc1
              refine ⟨⟨?_, ?_, ?_⟩, fun hx => absurd hx hne, by simp [hw]⟩
              · intro hx
                simp [hop] at hx
              · intro hx
                simp [hw] at hx
              · intro _
                constructor
                · rw [countHeaders_append, hc1, hrec]
                · rw [head?_append_left _ _ hnn]
                  exact hh1
            · have hwf : st.wroteHeader = false := by
                cases hwb : st.wroteHeader
                · rfl
                · exact absurd hwb hw
              have hlf : st.lines = [] := hg.2.1 hwf
              simp only [hop, if_true, hwf, hlf, hemp]
              refine ⟨⟨?_, ?_, ?_⟩, fun hx => absurd hx hne, by simp [hwf]⟩
              · intro hx
                simp at hx
              · intro hx
                simp at hx
              · intro _
                constructor
                · rw [countHeaders_append, hrec]
                  rfl
                · rfl
          · have hof : st.opened = false := by
              cases hob : st.opened
              · rfl
              · exact absurd hob hop
            have hwf : st.wroteHeader = false := hg.1 hof
            have hlf : st.lines = [] := hg.2.1 hwf
            simp only [hop, if_false, hof, hwf, hlf, hemp]
            refine ⟨⟨?_, ?_, ?_⟩, fun hx => absurd hx hne, by simp [hwf]⟩
            · intro hx
              simp at hx
            · intro hx
              simp at hx
            · intro _
              constructor
              · rw [countHeaders_append, hrec]
                rfl
              · rfl
        · rw [if_neg hall] at h
          cases h

lemma runWriteObs_invariant (env : PhotEnv) (calls : List WriteCall) :
    ∀ (st st' : ObsState), goodState st →
      runWriteObs env st calls = Except.ok st' →
      goodState st' ∧
      st'.wroteHeader = (st.wroteHeader || calls.any (fun c => !c.idxObs.isEmpty)) ∧
      ((∀ c ∈ calls, c.idxObs = []) → st' = st) := by
  induction calls with
  | nil =>
      intro st st' hg h
      rw [runWriteObs] at h
      cases h
      exact ⟨hg, by simp, fun _ => rfl⟩
  | cons c rest ih =>
      intro st st' hg h
      rw [runWriteObs] at h
      cases hw : writeObs env st c.objId c.interp c.simdata c.idxObs c.sedname with
      | error e =>
          rw [hw] at h
          cases h
      | ok st1 =>
          rw [hw] at h
          simp only at h
          obtain ⟨hg1, hempty1, hwh1⟩ := writeObs_step env st st1 _ _ _ _ _ hg hw
          obtain ⟨hg2, hwh2, hempty2⟩ := ih st1 st' hg1 h
          refine ⟨hg2, ?_, ?_⟩
          · rw [hwh2, hwh1, List.any_cons]
            cases st.wroteHeader <;> cases hbc : c.idxObs.isEmpty <;> simp
          · intro hall
            have h1 : st1 = st := hempty1 (hall c (List.mem_cons_self c rest))
            rw [h1] at hempty2
            exact hempty2 (fun d hd => hall d (List.mem_cons_of_mem c hd))

/-- C4: across a run of writeObs calls from the fresh writer state, a call
with an empty match set writes nothing (neither data lines nor header); the
header line is written exactly once, as the first output line, on the first
call with a non-empty match set; when every call has zero matches the output
holds no header at all. -/
theorem C4_writeObs_header_once (env : PhotEnv) (calls : List WriteCall)
    (st' : ObsState)
    (h : runWriteObs env ObsState.start calls = Except.ok st') :
    (∀ (st : ObsState) (c : WriteCall), c.idxObs = [] →
      writeObs env st c.objId c.interp c.simdata c.idxObs c.sedname =
        Except.ok st) ∧
    ((∀ c ∈ calls, c.idxObs = []) → st' = ObsState.start) ∧
    countHeaders st'.lines =
      (if calls.any (fun c => !c.idxObs.isEmpty) = true then 1 else 0) ∧
    (st'.lines ≠ [] → st'.lines.head? = some (OutLine.header outCols)) := by
  obtain ⟨hg, hwh, hempty⟩ :=
    runWriteObs_invariant env calls ObsState.start st' goodState_start h
  refine ⟨?_, hempty, ?_, ?_⟩
  · intro st c hc
    rw [hc]
    exact writeObs_empty_noop env st c.objId c.interp c.simdata c.sedname
  · cases hany : calls.any (fun c => !c.idxObs.isEmpty) with
    | false =>
        have hwf : st'.wroteHeader = false := by
          rw [hwh, hany]
          rfl
        rw [hg.2.1 hwf]
        simp [countHeaders]
    | true =>
        have hwt : st'.wroteHeader = true := by
          rw [hwh, hany]
          rfl
        simpa using (hg.2.2 hwt).1
  · intro hne
    cases hwb : st'.wroteHeader with
    | false => exact absurd (hg.2.1 hwb) hne
    | true => exact (hg.2.2 hwb).2

/-- Witness for C4: a run of one call with an empty match index set. -/
theorem C4_writeObs_header_once_witness :
    runWriteObs (PhotEnv.mk true (fun _ _ => 0)) ObsState.start
      [WriteCall.mk "obj"
        (Interp.mk (fun _ => 0) (fun _ => 0) (fun _ => 0) (fun _ => 0)
          (fun _ => 0) (fun _ => 0) (fun _ => 0) (fun _ => 0) (fun _ => 0))
        [] [] "C.dat"] = Except.ok ObsState.start ∧
    ((∀ c ∈ [WriteCall.mk "obj"
        (Interp.mk (fun _ => 0) (fun _ => 0) (fun _ => 0) (fun _ => 0)
          (fun _ => 0) (fun _ => 0) (fun _ => 0) (fun _ => 0) (fun _ => 0))
        [] [] "C.dat"], c.idxObs = ([] : List ℕ)) → ObsState.start = ObsState.start) := by
  have h : runWriteObs (PhotEnv.mk true (fun _ _ => 0)) ObsState.start
      [WriteCall.mk "obj"
        (Interp.mk (fun _ => 0) (fun _ => 0) (fun _ => 0) (fun _ => 0)
          (fun _ => 0) (fun _ => 0) (fun _ => 0) (fun _ => 0) (fun _ => 0))
        [] [] "C.dat"] = Except.ok ObsState.start := by
    simp only [runWriteObs, writeObs_empty_noop]
  exact ⟨h, (C4_writeObs_header_once (PhotEnv.mk true (fun _ _ => 0)) _ _ h).2.1⟩

/-! Section: Field-of-view matching (LinearObs.ssoInFov, linearObs.py lines 88-122)

angularSeparation (lsst.sims.utils) and chipNameFromRaDecLSST
(lsst.sims.coordUtils) are external collaborators: the separation function
maps two sky positions in degrees to their great-circle distance, the chip
service maps an object position plus pointing metadata (boresight RA/Dec,
rotation, time; epoch fixed at 2000.0) to the containing detector, if any.
The visit table stores field coordinates in radians; the source converts them
with np.degrees before both external calls. -/

/-- The circumscribing camera radius set in LinearObs.__init__ (2.1 degrees). -/
noncomputable def cameraFov : ℝ := 2.1

structure ChipService where
  chipName : ℝ → ℝ → ℝ → ℝ → ℝ → ℝ → Option String

/-- np.degrees. -/
noncomputable def degreesOf (x : ℝ) : ℝ := x * (180 / Real.pi)

noncomputable def ssoInFov (sep : ℝ → ℝ → ℝ → ℝ → ℝ) (chip : ChipService)
    (interp : Interp) (simdata : List Visit) (rFov : ℝ) (useCamera : Bool) :
    List ℕ :=
  let sepOf : Visit → ℝ := fun v =>
    sep (interp.ra v.expMJD) (interp.dec v.expMJD)
      (degreesOf v.fieldRA) (degreesOf v.fieldDec)
  if !useCamera then
    (simdata.enum.filter (fun p => decide (sepOf p.2 < rFov))).map Prod.fst
  else
    let idxObsRough :=
      (simdata.enum.filter (fun p => decide (sepOf p.2 < cameraFov))).map Prod.fst
    idxObsRough.filter (fun idx =>
      let v := simdata.getD idx default
      decide (chip.chipName (interp.ra v.expMJD) (interp.dec v.expMJD)
        (degreesOf v.fieldRA) (degreesOf v.fieldDec) (degreesOf v.rotSkyPos)
        v.expMJD ≠ none))

/-- C7: a visit whose boresight coincides with the interpolated object
position (separation 0) passes the rough test for every positive radius, and
is a final match whenever the footprint service maps that position to a live
detector. -/
theorem C7_boresight_match (sep : ℝ → ℝ → ℝ → ℝ → ℝ) (chip : ChipService)
    (interp : Interp) (simdata : List Visit) (i : ℕ) (v : Visit) (rFov : ℝ)
    (hv : simdata.get? i = some v)
    (hsep : sep (interp.ra v.expMJD) (interp.dec v.expMJD)
      (degreesOf v.fieldRA) (degreesOf v.fieldDec) = 0)
    (hr : 0 < rFov) :
    i ∈ ssoInFov sep chip interp simdata rFov false ∧
    (chip.chipName (interp.ra v.expMJD) (interp.dec v.expMJD)
        (degreesOf v.fieldRA) (degreesOf v.fieldDec) (degreesOf v.rotSkyPos)
        v.expMJD ≠ none →
      i ∈ ssoInFov sep chip interp simdata rFov true) := by
  have henum : (i, v) ∈ simdata.enum := List.mk_mem_enum_iff_get?.mpr hv
  constructor
  · rw [ssoInFov]
    simp only [Bool.not_false, if_true]
    apply List.mem_map.mpr
    refine ⟨(i, v), List.mem_filter.mpr ⟨henum, ?_⟩, rfl⟩
    simp only [decide_eq_true_eq, hsep]
    exact hr
  · intro hchip
    rw [ssoInFov]
    simp only [Bool.not_true, if_false]
    apply List.mem_filter.mpr
    constructor
    · apply List.mem_map.mpr
      refine ⟨(i, v), List.mem_filter.mpr ⟨henum, ?_⟩, rfl⟩
      simp only [decide_eq_true_eq, hsep, cameraFov]
      norm_num
    · have hgd : simdata.getD i default = v := by
        rw [List.getD, hv]
        rfl
      simp only [hgd, decide_eq_true_eq]
      exact hchip

/-- Witness for C7: a single visit at the origin, a constant-zero separation
function and a chip service that always reports a detector. -/
theorem C7_boresight_match_witness :
    ([Visit.mk 0 0 0 0 "u" 0 0] : List Visit).get? 0 = some (Visit.mk 0 0 0 0 "u" 0 0) ∧
    (0 : ℝ) < 1 ∧
    (0 : ℕ) ∈ ssoInFov (fun _ _ _ _ => 0) (ChipService.mk (fun _ _ _ _ _ _ => some "R22"))
      (Interp.mk (fun _ => 0) (fun _ => 0) (fun _ => 0) (fun _ => 0) (fun _ => 0)
        (fun _ => 0) (fun _ => 0) (fun _ => 0) (fun _ => 0))
      [Visit.mk 0 0 0 0 "u" 0 0] 1 false ∧
    (0 : ℕ) ∈ ssoInFov (fun _ _ _ _ => 0) (ChipService.mk (fun _ _ _ _ _ _ => some "R22"))
      (Interp.mk (fun _ => 0) (fun _ => 0) (fun _ => 0) (fun _ => 0) (fun _ => 0)
        (fun _ => 0) (fun _ => 0) (fun _ => 0) (fun _ => 0))
      [Visit.mk 0 0 0 0 "u" 0 0] 1 true := by
  have hmain := C7_boresight_match (fun _ _ _ _ => 0)
    (ChipService.mk (fun _ _ _ _ _ _ => some "R22"))
    (Interp.mk (fun _ => 0) (fun _ => 0) (fun _ => 0) (fun _ => 0) (fun _ => 0)
      (fun _ => 0) (fun _ => 0) (fun _ => 0) (fun _ => 0))
    [Visit.mk 0 0 0 0 "u" 0 0] 0 (Visit.mk 0 0 0 0 "u" 0 0) 1 rfl rfl one_pos
  exact ⟨rfl, one_pos, hmain.1, hmain.2 (by simp)⟩

/-- C10: with the camera footprint enabled, the result of ssoInFov does not
depend on the rFov argument at all; the coarse stage compares against the
fixed instrument radius. -/
theorem C10_useCamera_rFov_independent (sep : ℝ → ℝ → ℝ → ℝ → ℝ)
    (chip : ChipService) (interp : Interp) (simdata : List Visit)
    (rFov1 rFov2 : ℝ) :
    ssoInFov sep chip interp simdata rFov1 true =
      ssoInFov sep chip interp simdata rFov2 true := rfl

end MovingObjects
